import Mathlib

/-!
Shallow embedding of the `EncryptedPokerGame` Solidity contract
(contracts/EncryptedPokerGame.sol) and of the log-scanning logic of the
React client (game/src/components/PokerGame.tsx), together with theorems
about the session lifecycle, the reward policy and the error handling.

Modelling conventions:
* addresses and 256-bit words are `ℕ`; the zero address is `0`;
  `uint256` wrap-around is written `% 2 ^ 256` where the source relies on it;
* `keccak256(abi.encodePacked(...))` is an arbitrary parameter function
  `keccak : ℕ → ℕ → ℕ → ℕ → ℕ` whose result is reduced `% 2 ^ 256`;
* the FHE ciphertext handles produced by the external Zama library
  (`FHE.asEuint8` / `FHE.allow` / `FHE.toBytes32`) are opaque parameters
  `encSuit encRank : ℕ`; no claim depends on their values;
* each external entry point returns a `CallResult`: an optional revert
  error, the post-transaction state (equal to the input state whenever the
  call reverted, per EVM atomicity), and the ordered `trace` of the actions
  the execution attempted (session clearing, external value transfers,
  event emissions) up to the point of return or revert.
-/

namespace EncryptedPokerGame

/-- `uint256 public constant GAME_FEE = 1e15;` -/
def GAME_FEE : ℕ := 10 ^ 15

/-- `uint256 public constant SUIT_REWARD = 1e14;` -/
def SUIT_REWARD : ℕ := 10 ^ 14

/-- `uint256 public constant RANK_REWARD = 1e15;` -/
def RANK_REWARD : ℕ := 10 ^ 15

/-- `uint256 public constant FULL_REWARD = 2e15;` -/
def FULL_REWARD : ℕ := 2 * 10 ^ 15

/-- Modulus of solidity `uint256` arithmetic. -/
def UINT256_MOD : ℕ := 2 ^ 256

/-- `struct GameSession` of the contract.  `encryptedSuit` / `encryptedRank`
are the opaque ciphertext handles, `suit` / `rank` the cleartext copies the
contract keeps for comparison, `active` the session flag. -/
structure GameSession where
  encryptedSuit : ℕ
  encryptedRank : ℕ
  suit : ℕ
  rank : ℕ
  active : Bool
deriving DecidableEq, Repr

/-- The all-zero session record produced by `delete games[msg.sender]`
(and the default value of the `games` mapping). -/
def GameSession.cleared : GameSession :=
  { encryptedSuit := 0, encryptedRank := 0, suit := 0, rank := 0, active := false }

/-- Contract storage plus the contract's ether balance:
`mapping(address => GameSession) private games`, `address private _owner`,
`uint256 private _nonce`, and `address(this).balance`. -/
structure ContractState where
  games : ℕ → GameSession
  owner : ℕ
  nonce : ℕ
  balance : ℕ

/-- Write one slot of the `games` mapping. -/
def setGame (games : ℕ → GameSession) (player : ℕ) (g : GameSession) : ℕ → GameSession :=
  fun q => if q = player then g else games q

/-- The named custom errors of the contract. -/
inductive ContractError where
  | ActiveGameExists
  | InvalidFee
  | InvalidGuess
  | NoActiveGame
  | TransferFailed
  | InsufficientBankroll
  | AmountExceedsBalance
  | NotOwner
  | InvalidOwner
  | InvalidRecipient
deriving DecidableEq, Repr

/-- The events the contract emits. -/
inductive Event where
  | GameStarted (player suitHandle rankHandle : ℕ)
  | GuessEvaluated (player : ℕ) (suitMatched rankMatched : Bool) (reward : ℕ)
  | OwnershipTransferred (previousOwner newOwner : ℕ)
deriving DecidableEq, Repr

/-- Observable actions of an execution, recorded in program order:
clearing of a caller's session (`session.active = false; delete
games[msg.sender];`), an external value transfer (`.call{value: ...}`),
and an event emission. -/
inductive Action where
  | sessionCleared (player : ℕ)
  | externalTransfer (recipient amount : ℕ)
  | emit (e : Event)
deriving DecidableEq, Repr

/-- Result of one external call: the revert error if any, the
post-transaction state (the EVM rolls a reverted call back to the input
state), and the ordered trace of actions the execution attempted before
returning or reverting. -/
structure CallResult where
  err : Option ContractError
  state : ContractState
  trace : List Action

/-- The reward ladder of `makeGuess` (lines 118-126 of the contract):
`if (suitMatched && rankMatched) reward = FULL_REWARD; else if (rankMatched)
reward = RANK_REWARD; else if (suitMatched) reward = SUIT_REWARD;` with
`reward` defaulting to `0`. -/
def rewardOf (suitMatched rankMatched : Bool) : ℕ :=
  if suitMatched && rankMatched then FULL_REWARD
  else if rankMatched then RANK_REWARD
  else if suitMatched then SUIT_REWARD
  else 0

/-- Shallow embedding of `makeGuess(uint8 suitGuess, uint8 rankGuess)`.
`transferOk` models whether the low-level reward transfer to the caller
succeeds (`(bool success, ) = payable(msg.sender).call{value: reward}("")`). -/
def makeGuess (s : ContractState) (sender suitGuess rankGuess : ℕ)
    (transferOk : Bool) : CallResult :=
  if suitGuess < 1 ∨ 4 < suitGuess ∨ rankGuess < 1 ∨ 13 < rankGuess then
    ⟨some .InvalidGuess, s, []⟩
  else if (s.games sender).active = false then
    ⟨some .NoActiveGame, s, []⟩
  else
    let suitMatched : Bool := (s.games sender).suit == suitGuess
    let rankMatched : Bool := (s.games sender).rank == rankGuess
    let reward := rewardOf suitMatched rankMatched
    let cleared : ContractState :=
      { s with games := setGame s.games sender GameSession.cleared }
    if 0 < reward then
      if cleared.balance < reward then
        ⟨some .InsufficientBankroll, s, [.sessionCleared sender]⟩
      else if transferOk = false then
        ⟨some .TransferFailed, s,
          [.sessionCleared sender, .externalTransfer sender reward]⟩
      else
        ⟨none, { cleared with balance := cleared.balance - reward },
          [.sessionCleared sender, .externalTransfer sender reward,
            .emit (.GuessEvaluated sender suitMatched rankMatched reward)]⟩
    else
      ⟨none, cleared,
        [.sessionCleared sender,
          .emit (.GuessEvaluated sender suitMatched rankMatched reward)]⟩

/-- Block context feeding the pseudo-random draw. -/
structure BlockEnv where
  prevrandao : ℕ
  timestamp : ℕ
deriving DecidableEq, Repr

/-- Suit extractor of `_drawCard`: `uint8((randomSeed % 4) + 1)`. -/
def suitOfSeed (seed : ℕ) : ℕ := seed % 4 + 1

/-- Rank extractor of `_drawCard`: `uint8(((randomSeed >> 16) % 13) + 1)`. -/
def rankOfSeed (seed : ℕ) : ℕ := seed / 2 ^ 16 % 13 + 1

/-- Shallow embedding of `_drawCard(address player)` minus the nonce
increment (which `startGame` below performs on the state): the random seed
is `keccak256(abi.encodePacked(block.prevrandao, block.timestamp, player,
_nonce))`, a 256-bit word. -/
def drawCard (keccak : ℕ → ℕ → ℕ → ℕ → ℕ) (env : BlockEnv)
    (player nonce : ℕ) : ℕ × ℕ :=
  let randomSeed := keccak env.prevrandao env.timestamp player nonce % UINT256_MOD
  (suitOfSeed randomSeed, rankOfSeed randomSeed)

/-- Shallow embedding of `startGame()`.  `value` is `msg.value`; the EVM
credits it to the contract before the body runs, so the
`address(this).balance` read by the bankroll check is `s.balance + value`
(a revert also rolls this credit back).  `encSuit` / `encRank` are the
opaque ciphertext handles produced for the drawn card by the external FHE
library. -/
def startGame (keccak : ℕ → ℕ → ℕ → ℕ → ℕ) (env : BlockEnv)
    (encSuit encRank : ℕ) (s : ContractState) (sender value : ℕ) : CallResult :=
  if value ≠ GAME_FEE then
    ⟨some .InvalidFee, s, []⟩
  else if (s.games sender).active then
    ⟨some .ActiveGameExists, s, []⟩
  else if s.balance + value < FULL_REWARD then
    ⟨some .InsufficientBankroll, s, []⟩
  else
    let drawn := drawCard keccak env sender s.nonce
    let session : GameSession :=
      { encryptedSuit := encSuit, encryptedRank := encRank,
        suit := drawn.1, rank := drawn.2, active := true }
    ⟨none,
      { games := setGame s.games sender session
        owner := s.owner
        nonce := (s.nonce + 1) % UINT256_MOD
        balance := s.balance + value },
      [.emit (.GameStarted sender encSuit encRank)]⟩

/-- Shallow embedding of `transferOwnership(address newOwner)`. -/
def transferOwnership (s : ContractState) (sender newOwner : ℕ) : CallResult :=
  if sender ≠ s.owner then
    ⟨some .NotOwner, s, []⟩
  else if newOwner = 0 then
    ⟨some .InvalidOwner, s, []⟩
  else
    ⟨none, { s with owner := newOwner },
      [.emit (.OwnershipTransferred s.owner newOwner)]⟩

/-- Shallow embedding of `withdraw(address payable recipient, uint256
amount)`.  `transferOk` models whether `recipient.call{value: amount}("")`
succeeds. -/
def withdraw (s : ContractState) (sender recipient amount : ℕ)
    (transferOk : Bool) : CallResult :=
  if sender ≠ s.owner then
    ⟨some .NotOwner, s, []⟩
  else if recipient = 0 then
    ⟨some .InvalidRecipient, s, []⟩
  else if s.balance < amount then
    ⟨some .AmountExceedsBalance, s, []⟩
  else if transferOk = false then
    ⟨some .TransferFailed, s, [.externalTransfer recipient amount]⟩
  else
    ⟨none, { s with balance := s.balance - amount },
      [.externalTransfer recipient amount]⟩

/-- Transactions a contract account can receive: the four state-changing
entry points plus a plain ether deposit (the `receive()` function). -/
inductive Tx where
  | start (env : BlockEnv) (encSuit encRank sender value : ℕ)
  | guess (sender suitGuess rankGuess : ℕ) (transferOk : Bool)
  | withdrawal (sender recipient amount : ℕ) (transferOk : Bool)
  | ownership (sender newOwner : ℕ)
  | deposit (amount : ℕ)

/-- Post-transaction state of one transaction (reverted transactions leave
the state unchanged, by construction of `CallResult`). -/
def applyTx (keccak : ℕ → ℕ → ℕ → ℕ → ℕ) (s : ContractState) : Tx → ContractState
  | .start env eS eR sender value => (startGame keccak env eS eR s sender value).state
  | .guess sender sg rg ok => (makeGuess s sender sg rg ok).state
  | .withdrawal sender r a ok => (withdraw s sender r a ok).state
  | .ownership sender n => (transferOwnership s sender n).state
  | .deposit a => { s with balance := s.balance + a }

/-- State right after the constructor ran: empty `games` mapping,
`_owner = msg.sender` (the deployer), `_nonce = 0`, zero balance. -/
def initialState (deployer : ℕ) : ContractState :=
  { games := fun _ => GameSession.cleared, owner := deployer, nonce := 0, balance := 0 }

/-- States reachable from deployment by any sequence of transactions. -/
inductive Reachable (keccak : ℕ → ℕ → ℕ → ℕ → ℕ) (deployer : ℕ) :
    ContractState → Prop where
  | init : Reachable keccak deployer (initialState deployer)
  | step (s : ContractState) (tx : Tx) :
      Reachable keccak deployer s → Reachable keccak deployer (applyTx keccak s tx)

/-- Number of active sessions the state holds for one player (the `games`
mapping has exactly one slot per address). -/
def activeSessionCount (s : ContractState) (player : ℕ) : ℕ :=
  if (s.games player).active then 1 else 0

/-! ### Client model (game/src/components/PokerGame.tsx)

The two React mutations scan the confirmed receipt's logs with
`contractInterface.parseLog`, skipping logs that fail to parse or belong
to other contracts, and pick the first log whose parsed name matches the
expected event. -/

/-- One receipt log as the client sees it after `parseLog`: unparseable
(parse threw or returned `null`), one of the two game events with its
decoded arguments, or some other parsed event. -/
inductive ClientLog where
  | unparseable
  | gameStarted (encryptedSuit encryptedRank : ℕ)
  | guessEvaluated (suitMatched rankMatched : Bool) (reward : ℕ)
  | otherEvent (name : String)
deriving DecidableEq, Repr

/-- The `startGameMutation` loop over `receipt.logs`: first `GameStarted`
log wins; `none` when no such log exists (`suitHandle` / `rankHandle`
remain `null`). -/
def findGameStarted : List ClientLog → Option (ℕ × ℕ)
  | [] => none
  | .gameStarted encS encR :: _ => some (encS, encR)
  | _ :: rest => findGameStarted rest

/-- The `guessMutation` loop over `receipt.logs`: first `GuessEvaluated`
log wins. -/
def findGuessEvaluated : List ClientLog → Option (Bool × Bool × ℕ)
  | [] => none
  | .guessEvaluated sm rm r :: _ => some (sm, rm, r)
  | _ :: rest => findGuessEvaluated rest

/-- How a submitted transaction comes back to the client: the provider
threw because the transaction reverted (carrying the custom error in its
data), or the transaction confirmed with a receipt holding these logs. -/
inductive TxOutcome where
  | reverted (err : ContractError)
  | confirmed (logs : List ClientLog)

/-- What a mutation reports: a successful result, the revert failure path
(`onError` formats the custom error carried by the provider exception), or
a failure thrown by the client's own code (`onError` surfaces its
message). -/
inductive MutationOutcome (α : Type) where
  | success (value : α)
  | revertFailure (err : ContractError)
  | clientFailure (message : String)
deriving DecidableEq, Repr

/-- `startGameMutation.mutationFn` after submission: on a confirmed
receipt it returns `suitHandle && rankHandle ? { suit, rank } : null` —
a missing `GameStarted` event yields a *successful* `null` result, not a
failure. -/
def startGameMutation (tx : TxOutcome) : MutationOutcome (Option (ℕ × ℕ)) :=
  match tx with
  | .reverted e => .revertFailure e
  | .confirmed logs => .success (findGameStarted logs)

/-- `guessMutation.mutationFn` after submission: on a confirmed receipt it
returns the decoded `GuessEvaluated` payload, and throws
`Unable to read guess result from transaction logs.` when no such event is
found in the logs. -/
def guessMutation (tx : TxOutcome) : MutationOutcome (Bool × Bool × ℕ) :=
  match tx with
  | .reverted e => .revertFailure e
  | .confirmed logs =>
    match findGuessEvaluated logs with
    | some result => .success result
    | none => .clientFailure "Unable to read guess result from transaction logs."

/-! ### Concrete fixtures used to instantiate the theorems -/

/-- A concrete stand-in for the hash function, for concrete executions. -/
def keccakZero : ℕ → ℕ → ℕ → ℕ → ℕ := fun _ _ _ _ => 0

/-- A concrete block environment. -/
def envZero : BlockEnv := { prevrandao := 0, timestamp := 0 }

/-- Deployed by address 1; player 7 holds an active session with suit 3 and
rank 9; the contract holds `0.01` ether. -/
def stateActive : ContractState :=
  { games := setGame (fun _ => GameSession.cleared) 7
      { encryptedSuit := 11, encryptedRank := 22, suit := 3, rank := 9, active := true }
    owner := 1, nonce := 5, balance := 10 ^ 16 }

/-- Same sessions as `stateActive` but with an empty bankroll. -/
def stateActiveBroke : ContractState := { stateActive with balance := 0 }

/-- Deployed by address 1, no active sessions, bankroll `0.003` ether. -/
def stateIdle : ContractState := { initialState 1 with balance := 3 * 10 ^ 15 }

/-! ### Theorems -/

/-- C1: for every `makeGuess` call by a caller with an active session and an
in-range guess that does not revert, the reward paid is exactly the
three-tier policy: both match → `FULL_REWARD`, rank only → `RANK_REWARD`,
suit only → `SUIT_REWARD`, neither → `0` (the four cases are the four
values of the pair of match booleans, hence mutually exclusive and
exhaustive), the emitted `GuessEvaluated` event carries the two match flags
and that reward, and the contract balance decreases by exactly that
reward. -/
theorem makeGuess_reward_policy (s : ContractState) (sender suitGuess rankGuess : ℕ)
    (transferOk : Bool)
    (hs1 : 1 ≤ suitGuess) (hs4 : suitGuess ≤ 4)
    (hr1 : 1 ≤ rankGuess) (hr13 : rankGuess ≤ 13)
    (hactive : (s.games sender).active = true)
    (hok : (makeGuess s sender suitGuess rankGuess transferOk).err = none) :
    (rewardOf true true = FULL_REWARD ∧ rewardOf false true = RANK_REWARD ∧
      rewardOf true false = SUIT_REWARD ∧ rewardOf false false = 0) ∧
    Action.emit (.GuessEvaluated sender ((s.games sender).suit == suitGuess)
        ((s.games sender).rank == rankGuess)
        (rewardOf ((s.games sender).suit == suitGuess) ((s.games sender).rank == rankGuess)))
      ∈ (makeGuess s sender suitGuess rankGuess transferOk).trace ∧
    (makeGuess s sender suitGuess rankGuess transferOk).state.balance
        + rewardOf ((s.games sender).suit == suitGuess) ((s.games sender).rank == rankGuess)
      = s.balance := by
  have hguard : ¬(suitGuess < 1 ∨ 4 < suitGuess ∨ rankGuess < 1 ∨ 13 < rankGuess) := by omega
  refine ⟨⟨rfl, rfl, rfl, rfl⟩, ?_, ?_⟩ <;>
  · unfold makeGuess at hok ⊢
    simp only [hguard, hactive, if_false, ite_false, ite_true, if_neg (by decide : ¬(true = false))] at hok ⊢
    split_ifs at hok ⊢ <;> simp_all

/-- Witness for `makeGuess_reward_policy`: full match by player 7 in
`stateActive`. -/
theorem makeGuess_reward_policy_witness :
    (rewardOf true true = FULL_REWARD ∧ rewardOf false true = RANK_REWARD ∧
      rewardOf true false = SUIT_REWARD ∧ rewardOf false false = 0) ∧
    Action.emit (.GuessEvaluated 7 ((stateActive.games 7).suit == 3)
        ((stateActive.games 7).rank == 9)
        (rewardOf ((stateActive.games 7).suit == 3) ((stateActive.games 7).rank == 9)))
      ∈ (makeGuess stateActive 7 3 9 true).trace ∧
    (makeGuess stateActive 7 3 9 true).state.balance
        + rewardOf ((stateActive.games 7).suit == 3) ((stateActive.games 7).rank == 9)
      = stateActive.balance :=
  makeGuess_reward_policy stateActive 7 3 9 true (by decide) (by decide) (by decide)
    (by decide) (by decide) (by decide)

/-- C2: a `startGame` call with the correct fee by a caller with no active
session reverts `InsufficientBankroll` exactly when the contract balance
read by the bankroll check (the pre-call balance plus the just-deposited
fee, per EVM semantics) is below `FULL_REWARD`, and otherwise succeeds and
activates the caller's session. -/
theorem startGame_bankroll (keccak : ℕ → ℕ → ℕ → ℕ → ℕ) (env : BlockEnv)
    (encSuit encRank : ℕ) (s : ContractState) (sender : ℕ)
    (hactive : (s.games sender).active = false) :
    ((startGame keccak env encSuit encRank s sender GAME_FEE).err
        = some .InsufficientBankroll ↔ s.balance + GAME_FEE < FULL_REWARD) ∧
    (FULL_REWARD ≤ s.balance + GAME_FEE →
      (startGame keccak env encSuit encRank s sender GAME_FEE).err = none ∧
      ((startGame keccak env encSuit encRank s sender GAME_FEE).state.games sender).active
        = true) := by
  unfold startGame
  simp only [ne_eq, eq_self_iff_true, not_true, if_false, hactive,
    if_neg (by decide : ¬(false = true))]
  split_ifs with h
  · exact ⟨by simpa using h, fun hge => absurd h (by omega)⟩
  · exact ⟨by simpa using h, fun _ => ⟨rfl, by simp [setGame]⟩⟩

/-- Witness for `startGame_bankroll`: player 8 starting in `stateIdle`
(bankroll `3e15`). -/
theorem startGame_bankroll_witness :
    ((startGame keccakZero envZero 33 44 stateIdle 8 GAME_FEE).err
        = some .InsufficientBankroll ↔ stateIdle.balance + GAME_FEE < FULL_REWARD) ∧
    (FULL_REWARD ≤ stateIdle.balance + GAME_FEE →
      (startGame keccakZero envZero 33 44 stateIdle 8 GAME_FEE).err = none ∧
      ((startGame keccakZero envZero 33 44 stateIdle 8 GAME_FEE).state.games 8).active
        = true) :=
  startGame_bankroll keccakZero envZero 33 44 stateIdle 8 (by decide)

/-- C5: an out-of-range guess reverts `InvalidGuess` without touching state
(this check runs before the session check, so it wins even with no active
session), and an in-range guess with no active session reverts
`NoActiveGame` without touching state. -/
theorem makeGuess_validation (s : ContractState) (sender suitGuess rankGuess : ℕ)
    (transferOk : Bool) :
    ((suitGuess < 1 ∨ 4 < suitGuess ∨ rankGuess < 1 ∨ 13 < rankGuess) →
      (makeGuess s sender suitGuess rankGuess transferOk).err = some .InvalidGuess ∧
      (makeGuess s sender suitGuess rankGuess transferOk).state = s ∧
      (makeGuess s sender suitGuess rankGuess transferOk).trace = []) ∧
    (¬(suitGuess < 1 ∨ 4 < suitGuess ∨ rankGuess < 1 ∨ 13 < rankGuess) →
      (s.games sender).active = false →
      (makeGuess s sender suitGuess rankGuess transferOk).err = some .NoActiveGame ∧
      (makeGuess s sender suitGuess rankGuess transferOk).state = s ∧
      (makeGuess s sender suitGuess rankGuess transferOk).trace = []) := by
  constructor
  · intro h
    unfold makeGuess
    rw [if_pos h]
    exact ⟨rfl, rfl, rfl⟩
  · intro h hactive
    unfold makeGuess
    rw [if_neg h, if_pos hactive]
    exact ⟨rfl, rfl, rfl⟩

/-- Witness for `makeGuess_validation`: in `stateIdle` (no session for
player 7), guess `(9, 5)` reverts `InvalidGuess` and guess `(2, 5)` reverts
`NoActiveGame`. -/
theorem makeGuess_validation_witness :
    ((makeGuess stateIdle 7 9 5 true).err = some .InvalidGuess ∧
      (makeGuess stateIdle 7 9 5 true).state = stateIdle ∧
      (makeGuess stateIdle 7 9 5 true).trace = []) ∧
    ((makeGuess stateIdle 7 2 5 true).err = some .NoActiveGame ∧
      (makeGuess stateIdle 7 2 5 true).state = stateIdle ∧
      (makeGuess stateIdle 7 2 5 true).trace = []) :=
  ⟨(makeGuess_validation stateIdle 7 9 5 true).1 (by omega),
   (makeGuess_validation stateIdle 7 2 5 true).2 (by omega) (by decide)⟩

/-- C9: an in-range guess against an active session where neither field
matches succeeds with no bankroll check and no external transfer — no
balance hypothesis is needed (it succeeds even on an empty bankroll), the
session is cleared, the balance is untouched, and the trace is exactly the
session clearing followed by `GuessEvaluated` with both flags false and
reward `0`. -/
theorem makeGuess_noMatch_noTransfer (s : ContractState) (sender suitGuess rankGuess : ℕ)
    (transferOk : Bool)
    (hs1 : 1 ≤ suitGuess) (hs4 : suitGuess ≤ 4)
    (hr1 : 1 ≤ rankGuess) (hr13 : rankGuess ≤ 13)
    (hactive : (s.games sender).active = true)
    (hsuit : (s.games sender).suit ≠ suitGuess)
    (hrank : (s.games sender).rank ≠ rankGuess) :
    (makeGuess s sender suitGuess rankGuess transferOk).err = none ∧
    (makeGuess s sender suitGuess rankGuess transferOk).state.balance = s.balance ∧
    (makeGuess s sender suitGuess rankGuess transferOk).state.games sender
      = GameSession.cleared ∧
    (makeGuess s sender suitGuess rankGuess transferOk).trace =
      [.sessionCleared sender, .emit (.GuessEvaluated sender false false 0)] := by
  have hguard : ¬(suitGuess < 1 ∨ 4 < suitGuess ∨ rankGuess < 1 ∨ 13 < rankGuess) := by omega
  unfold makeGuess
  simp only [hguard, hactive, if_false, ite_false, ite_true,
    if_neg (by decide : ¬(true = false))]
  have hsm : ((s.games sender).suit == suitGuess) = false := by
    simp [hsuit]
  have hrm : ((s.games sender).rank == rankGuess) = false := by
    simp [hrank]
  simp [hsm, hrm, rewardOf, setGame]

/-- Witness for `makeGuess_noMatch_noTransfer`: player 7 guesses `(2, 5)`
against suit 3 / rank 9 in `stateActiveBroke`, whose bankroll is zero. -/
theorem makeGuess_noMatch_noTransfer_witness :
    (makeGuess stateActiveBroke 7 2 5 true).err = none ∧
    (makeGuess stateActiveBroke 7 2 5 true).state.balance = stateActiveBroke.balance ∧
    (makeGuess stateActiveBroke 7 2 5 true).state.games 7 = GameSession.cleared ∧
    (makeGuess stateActiveBroke 7 2 5 true).trace =
      [.sessionCleared 7, .emit (.GuessEvaluated 7 false false 0)] :=
  makeGuess_noMatch_noTransfer stateActiveBroke 7 2 5 true (by decide) (by decide)
    (by decide) (by decide) (by decide) (by decide) (by decide)

/-- Every `makeGuess` trace is one of five concrete shapes, and in all of
them the caller's session clearing is the first action. -/
lemma makeGuess_trace_shape (s : ContractState) (sender suitGuess rankGuess : ℕ)
    (transferOk : Bool) :
    (makeGuess s sender suitGuess rankGuess transferOk).trace = [] ∨
    (makeGuess s sender suitGuess rankGuess transferOk).trace
      = [.sessionCleared sender] ∨
    (∃ amt, (makeGuess s sender suitGuess rankGuess transferOk).trace
      = [.sessionCleared sender, .externalTransfer sender amt]) ∨
    (∃ amt e, (makeGuess s sender suitGuess rankGuess transferOk).trace
      = [.sessionCleared sender, .externalTransfer sender amt, .emit e]) ∨
    (∃ e, (makeGuess s sender suitGuess rankGuess transferOk).trace
      = [.sessionCleared sender, .emit e]) := by
  simp only [makeGuess]
  split_ifs <;> simp

/-- A non-reverting `makeGuess` always leaves the caller's session slot
equal to the all-zero inactive record. -/
lemma makeGuess_success_state (s : ContractState) (sender suitGuess rankGuess : ℕ)
    (transferOk : Bool)
    (hok : (makeGuess s sender suitGuess rankGuess transferOk).err = none) :
    (makeGuess s sender suitGuess rankGuess transferOk).state.games sender
      = GameSession.cleared := by
  simp only [makeGuess] at hok ⊢
  split_ifs at hok ⊢ <;> simp_all [setGame]

/-- C4: in every execution of `makeGuess`, any external value transfer in
the action trace is strictly preceded by the clearing of the caller's
session, and every non-reverting `makeGuess` leaves the caller with the
all-zero inactive session — the caller is back in the no-session state
whatever the outcome. -/
theorem makeGuess_clears_session_before_transfer (s : ContractState)
    (sender suitGuess rankGuess : ℕ) (transferOk : Bool) :
    (∀ j recipient amount,
      (makeGuess s sender suitGuess rankGuess transferOk).trace.get? j
          = some (.externalTransfer recipient amount) →
      ∃ i, i < j ∧ (makeGuess s sender suitGuess rankGuess transferOk).trace.get? i
          = some (.sessionCleared sender)) ∧
    ((makeGuess s sender suitGuess rankGuess transferOk).err = none →
      (makeGuess s sender suitGuess rankGuess transferOk).state.games sender
        = GameSession.cleared) := by
  constructor
  · intro j recipient amount hj
    rcases makeGuess_trace_shape s sender suitGuess rankGuess transferOk with
      h | h | ⟨amt, h⟩ | ⟨amt, e, h⟩ | ⟨e, h⟩ <;> rw [h] at hj ⊢
    · cases j <;> simp at hj
    · match j with
      | 0 => simp at hj
      | n + 1 => simp at hj
    · match j with
      | 0 => simp at hj
      | 1 => exact ⟨0, by omega, rfl⟩
      | n + 2 => simp at hj
    · match j with
      | 0 => simp at hj
      | 1 => exact ⟨0, by omega, rfl⟩
      | 2 => simp at hj
      | n + 3 => simp at hj
    · match j with
      | 0 => simp at hj
      | 1 => simp at hj
      | n + 2 => simp at hj
  · exact makeGuess_success_state s sender suitGuess rankGuess transferOk

/-- Witness for `makeGuess_clears_session_before_transfer`: the full-match
guess of player 7 in `stateActive` transfers at trace position 1, after the
session clearing, and ends with the session cleared. -/
theorem makeGuess_clears_session_before_transfer_witness :
    (∃ i, i < 1 ∧ (makeGuess stateActive 7 3 9 true).trace.get? i
        = some (.sessionCleared 7)) ∧
    (makeGuess stateActive 7 3 9 true).state.games 7 = GameSession.cleared :=
  ⟨(makeGuess_clears_session_before_transfer stateActive 7 3 9 true).1 1 7 FULL_REWARD
      (by decide),
   (makeGuess_clears_session_before_transfer stateActive 7 3 9 true).2 (by decide)⟩

/-- C3 counterexample: in `stateActive`, player 7 holds an active session,
yet calling `startGame` with the wrong fee (`msg.value = 0`) reverts with
`InvalidFee`, not `ActiveGameExists` — the fee check runs first, so a start
while active does not *always* fail `ActiveGameExists`. -/
theorem startGame_activeSession_wrongFee_cex :
    (stateActive.games 7).active = true ∧
    (startGame keccakZero envZero 33 44 stateActive 7 0).err = some .InvalidFee ∧
    (startGame keccakZero envZero 33 44 stateActive 7 0).err ≠ some .ActiveGameExists := by
  decide

/-- C3 (amended): at every reachable state each player holds at most one
active session (the `games` mapping has one slot per address), and a
`startGame` call by a caller with an active session leaves the state
unchanged and reverts — with `ActiveGameExists` when the fee is correct,
with `InvalidFee` when it is not. -/
theorem startGame_activeSession (keccak : ℕ → ℕ → ℕ → ℕ → ℕ) (deployer : ℕ)
    (s : ContractState) (_hreach : Reachable keccak deployer s) (env : BlockEnv)
    (encSuit encRank player value : ℕ)
    (hactive : (s.games player).active = true) :
    activeSessionCount s player ≤ 1 ∧
    (value = GAME_FEE →
      (startGame keccak env encSuit encRank s player value).err = some .ActiveGameExists) ∧
    (value ≠ GAME_FEE →
      (startGame keccak env encSuit encRank s player value).err = some .InvalidFee) ∧
    (startGame keccak env encSuit encRank s player value).state = s := by
  refine ⟨by simp [activeSessionCount, hactive], ?_, ?_, ?_⟩
  · intro hfee
    unfold startGame
    rw [if_neg (by simp [hfee]), if_pos hactive]
  · intro hfee
    unfold startGame
    rw [if_pos hfee]
  · unfold startGame
    split_ifs <;> simp [setGame]

/-- Reachable state with an active session for player 7: deposit
`FULL_REWARD` into the fresh contract, then player 7 starts a game. -/
def stateStarted : ContractState :=
  applyTx keccakZero
    (applyTx keccakZero (initialState 1) (.deposit FULL_REWARD))
    (.start envZero 33 44 7 GAME_FEE)

/-- `stateStarted` is reachable from deployment by address 1. -/
lemma stateStarted_reachable : Reachable keccakZero 1 stateStarted :=
  Reachable.step _ _ (Reachable.step _ _ Reachable.init)

/-- Witness for `startGame_activeSession`: player 7 in the reachable state
`stateStarted` retries `startGame` with the correct fee. -/
theorem startGame_activeSession_witness :
    activeSessionCount stateStarted 7 ≤ 1 ∧
    (GAME_FEE = GAME_FEE →
      (startGame keccakZero envZero 5 6 stateStarted 7 GAME_FEE).err
        = some .ActiveGameExists) ∧
    (GAME_FEE ≠ GAME_FEE →
      (startGame keccakZero envZero 5 6 stateStarted 7 GAME_FEE).err
        = some .InvalidFee) ∧
    (startGame keccakZero envZero 5 6 stateStarted 7 GAME_FEE).state = stateStarted :=
  startGame_activeSession keccakZero 1 stateStarted stateStarted_reachable envZero
    5 6 7 GAME_FEE (by decide)

/-- C7: `withdraw` and `transferOwnership` revert `NotOwner` for any caller
other than the owner, leaving state untouched; called by the owner,
`withdraw` reverts `InvalidRecipient` on the zero recipient and
`AmountExceedsBalance` when the amount exceeds the balance (both without
state change), reverts `TransferFailed` when the recipient rejects the
transfer, and otherwise performs exactly one external transfer of `amount`
to `recipient` and debits the balance by `amount`. -/
theorem ownerOnly_ops (s : ContractState) (sender recipient amount newOwner : ℕ)
    (transferOk : Bool) :
    (sender ≠ s.owner →
      (withdraw s sender recipient amount transferOk).err = some .NotOwner ∧
      (withdraw s sender recipient amount transferOk).state = s ∧
      (transferOwnership s sender newOwner).err = some .NotOwner ∧
      (transferOwnership s sender newOwner).state = s) ∧
    (sender = s.owner →
      (recipient = 0 →
        (withdraw s sender recipient amount transferOk).err = some .InvalidRecipient ∧
        (withdraw s sender recipient amount transferOk).state = s) ∧
      (recipient ≠ 0 → s.balance < amount →
        (withdraw s sender recipient amount transferOk).err = some .AmountExceedsBalance ∧
        (withdraw s sender recipient amount transferOk).state = s) ∧
      (recipient ≠ 0 → amount ≤ s.balance → transferOk = false →
        (withdraw s sender recipient amount transferOk).err = some .TransferFailed ∧
        (withdraw s sender recipient amount transferOk).state = s) ∧
      (recipient ≠ 0 → amount ≤ s.balance → transferOk = true →
        (withdraw s sender recipient amount transferOk).err = none ∧
        (withdraw s sender recipient amount transferOk).state.balance
          = s.balance - amount ∧
        (withdraw s sender recipient amount transferOk).trace
          = [.externalTransfer recipient amount])) := by
  constructor
  · intro h
    unfold withdraw transferOwnership
    rw [if_pos h, if_pos h]
    exact ⟨rfl, rfl, rfl, rfl⟩
  · intro h
    refine ⟨fun hrec => ?_, fun hrec hbal => ?_, fun hrec hbal hok => ?_,
      fun hrec hbal hok => ?_⟩
    · unfold withdraw
      rw [if_neg (by simp [h]), if_pos hrec]
      exact ⟨rfl, rfl⟩
    · unfold withdraw
      rw [if_neg (by simp [h]), if_neg hrec, if_pos hbal]
      exact ⟨rfl, rfl⟩
    · unfold withdraw
      rw [if_neg (by simp [h]), if_neg hrec, if_neg (by omega), if_pos hok]
      exact ⟨rfl, rfl⟩
    · unfold withdraw
      rw [if_neg (by simp [h]), if_neg hrec, if_neg (by omega),
        if_neg (by simp [hok])]
      exact ⟨rfl, rfl, rfl⟩

/-- Witness for `ownerOnly_ops`: in `stateActive` (owner 1), caller 2 is
rejected by both owner-only operations, while the owner withdraws the whole
`1e16` balance to address 9. -/
theorem ownerOnly_ops_witness :
    ((withdraw stateActive 2 9 5 true).err = some .NotOwner ∧
      (withdraw stateActive 2 9 5 true).state = stateActive ∧
      (transferOwnership stateActive 2 9).err = some .NotOwner ∧
      (transferOwnership stateActive 2 9).state = stateActive) ∧
    ((withdraw stateActive 1 9 (10 ^ 16) true).err = none ∧
      (withdraw stateActive 1 9 (10 ^ 16) true).state.balance
        = stateActive.balance - 10 ^ 16 ∧
      (withdraw stateActive 1 9 (10 ^ 16) true).trace
        = [.externalTransfer 9 (10 ^ 16)]) :=
  ⟨(ownerOnly_ops stateActive 2 9 5 9 true).1 (by decide),
   ((ownerOnly_ops stateActive 1 9 (10 ^ 16) 9 true).2 (by decide)).2.2.2
      (by decide) (by decide) rfl⟩

/-- C10: a successful `withdraw` changes nothing but the balance: every
player's session record (active flag, cleartext card, ciphertext handles),
the owner and the nonce are untouched, and the balance drops by exactly
`amount` — no hypothesis ties the remaining balance to `FULL_REWARD`, so
the owner can drain the bankroll below `FULL_REWARD` even while sessions
are active (the witness does exactly that). -/
theorem withdraw_frame (s : ContractState) (sender recipient amount : ℕ)
    (howner : sender = s.owner) (hrec : recipient ≠ 0) (hamt : amount ≤ s.balance) :
    (withdraw s sender recipient amount true).err = none ∧
    (withdraw s sender recipient amount true).state.games = s.games ∧
    (withdraw s sender recipient amount true).state.owner = s.owner ∧
    (withdraw s sender recipient amount true).state.nonce = s.nonce ∧
    (withdraw s sender recipient amount true).state.balance = s.balance - amount := by
  unfold withdraw
  rw [if_neg (by simp [howner]), if_neg hrec, if_neg (by omega),
    if_neg (by simp)]
  exact ⟨rfl, rfl, rfl, rfl, rfl⟩

/-- Witness for `withdraw_frame`: the owner of `stateActive` withdraws the
entire `1e16` balance while player 7's session is still active, leaving a
bankroll of `0 < FULL_REWARD`. -/
theorem withdraw_frame_witness :
    (withdraw stateActive 1 9 (10 ^ 16) true).err = none ∧
    (withdraw stateActive 1 9 (10 ^ 16) true).state.games = stateActive.games ∧
    (withdraw stateActive 1 9 (10 ^ 16) true).state.owner = stateActive.owner ∧
    (withdraw stateActive 1 9 (10 ^ 16) true).state.nonce = stateActive.nonce ∧
    (withdraw stateActive 1 9 (10 ^ 16) true).state.balance
      = stateActive.balance - 10 ^ 16 :=
  withdraw_frame stateActive 1 9 (10 ^ 16) (by decide) (by decide) (by decide)

/-- C8 counterexample: a confirmed start transaction whose receipt holds no
`GameStarted` log makes `startGameMutation` return a *successful* `null`
result — it does not report any client failure (`Unable to read result`),
so the claim that *both* mutations report a distinct failure in this
situation is false. -/
theorem startGameMutation_missingEvent_cex :
    startGameMutation (.confirmed [.otherEvent "Transfer"]) = .success none ∧
    ∀ msg : String,
      startGameMutation (.confirmed [.otherEvent "Transfer"]) ≠ .clientFailure msg := by
  refine ⟨rfl, fun msg h => ?_⟩
  simp [startGameMutation, findGameStarted] at h

/-- C8 (amended): when a confirmed guess transaction's receipt holds no
`GuessEvaluated` log, `guessMutation` fails with the dedicated client
message `Unable to read guess result from transaction logs.`, which is a
different failure path from a reverted transaction (the revert path carries
the contract error); `startGameMutation`, by contrast, treats a receipt
with no `GameStarted` log as a success with `null` handles. -/
theorem guessMutation_eventNotFound (guessLogs startLogs : List ClientLog)
    (e : ContractError)
    (hguess : findGuessEvaluated guessLogs = none)
    (hstart : findGameStarted startLogs = none) :
    guessMutation (.confirmed guessLogs)
      = .clientFailure "Unable to read guess result from transaction logs." ∧
    guessMutation (.reverted e) = .revertFailure e ∧
    guessMutation (.confirmed guessLogs) ≠ guessMutation (.reverted e) ∧
    startGameMutation (.confirmed startLogs) = .success none := by
  refine ⟨?_, rfl, ?_, ?_⟩
  · simp [guessMutation, hguess]
  · simp [guessMutation, hguess]
  · simp [startGameMutation, hstart]

/-- Witness for `guessMutation_eventNotFound`: receipts holding only a
foreign event and an unparseable log, against a `NoActiveGame` revert. -/
theorem guessMutation_eventNotFound_witness :
    guessMutation (.confirmed [.otherEvent "Transfer"])
      = .clientFailure "Unable to read guess result from transaction logs." ∧
    guessMutation (.reverted .NoActiveGame) = .revertFailure .NoActiveGame ∧
    guessMutation (.confirmed [.otherEvent "Transfer"])
      ≠ guessMutation (.reverted .NoActiveGame) ∧
    startGameMutation (.confirmed [.unparseable]) = .success none :=
  guessMutation_eventNotFound [.otherEvent "Transfer"] [.unparseable] .NoActiveGame
    rfl rfl

/-! ### Distribution of `_drawCard` over the seed space

The draw reads a 256-bit seed.  The suit `seed % 4 + 1` partitions the
`2 ^ 256` seeds into four fibers of equal size, but the rank
`seed >> 16 % 13 + 1` does not: `2 ^ 240 ≡ 1 (mod 13)`, so rank 1 owns
`2 ^ 16` more seeds than each of ranks 2..13.  The counting is done
through the period `851968 = 13 * 65536` of the rank extractor. -/

/-- Filter-cardinality step: extending `range` by one element adds one
exactly when the predicate holds at the new element. -/
lemma card_filter_range_succ (Q : ℕ → Prop) [DecidablePred Q] (k : ℕ) :
    ((Finset.range (k + 1)).filter Q).card
      = ((Finset.range k).filter Q).card + (if Q k then 1 else 0) := by
  rw [Finset.range_succ, Finset.filter_insert]
  by_cases h : Q k
  · rw [if_pos h, if_pos h, Finset.card_insert_of_not_mem (by simp)]
  · rw [if_neg h, if_neg h, Nat.add_zero]

/-- One step of the period-`851968` count: moving from `range m` to
`range (m + 1)` adds the indicator of the predicate at the residue of `m`,
whether or not the partial period wraps. -/
lemma period13_step (Q : ℕ → Prop) [DecidablePred Q] (m : ℕ) :
    (m + 1) / 851968 * ((Finset.range 851968).filter Q).card
        + ((Finset.range ((m + 1) % 851968)).filter Q).card
      = m / 851968 * ((Finset.range 851968).filter Q).card
        + ((Finset.range (m % 851968)).filter Q).card
        + (if Q (m % 851968) then 1 else 0) := by
  by_cases hm : m % 851968 = 851967
  · have hC := card_filter_range_succ Q 851967
    norm_num at hC
    have hdiv : (m + 1) / 851968 = m / 851968 + 1 := by omega
    have hmod : (m + 1) % 851968 = 0 := by omega
    rw [hdiv, hmod, hm, hC, add_one_mul]
    simp only [Finset.range_zero, Finset.filter_empty, Finset.card_empty, Nat.add_zero]
    omega
  · have hdiv : (m + 1) / 851968 = m / 851968 := by omega
    have hmod : (m + 1) % 851968 = m % 851968 + 1 := by omega
    rw [hdiv, hmod, card_filter_range_succ Q (m % 851968)]
    omega

/-- Counting a periodic predicate of period `851968` over `range n`:
whole periods contribute the per-period count, plus the partial period. -/
lemma card_filter_mod_period13 (Q : ℕ → Prop) [DecidablePred Q] (n : ℕ) :
    ((Finset.range n).filter (fun x => Q (x % 851968))).card
      = n / 851968 * ((Finset.range 851968).filter Q).card
        + ((Finset.range (n % 851968)).filter Q).card := by
  induction n with
  | zero => simp
  | succ m ih =>
    rw [card_filter_range_succ (fun x => Q (x % 851968)) m, ih, period13_step Q m]

/-- One step of the period-`4` count, as in `period13_step`. -/
lemma period4_step (Q : ℕ → Prop) [DecidablePred Q] (m : ℕ) :
    (m + 1) / 4 * ((Finset.range 4).filter Q).card
        + ((Finset.range ((m + 1) % 4)).filter Q).card
      = m / 4 * ((Finset.range 4).filter Q).card
        + ((Finset.range (m % 4)).filter Q).card
        + (if Q (m % 4) then 1 else 0) := by
  by_cases hm : m % 4 = 3
  · have hC := card_filter_range_succ Q 3
    norm_num at hC
    have hdiv : (m + 1) / 4 = m / 4 + 1 := by omega
    have hmod : (m + 1) % 4 = 0 := by omega
    rw [hdiv, hmod, hm, hC, add_one_mul]
    simp only [Finset.range_zero, Finset.filter_empty, Finset.card_empty, Nat.add_zero]
    omega
  · have hdiv : (m + 1) / 4 = m / 4 := by omega
    have hmod : (m + 1) % 4 = m % 4 + 1 := by omega
    rw [hdiv, hmod, card_filter_range_succ Q (m % 4)]
    omega

/-- Counting a periodic predicate of period `4` over `range n`. -/
lemma card_filter_mod_period4 (Q : ℕ → Prop) [DecidablePred Q] (n : ℕ) :
    ((Finset.range n).filter (fun x => Q (x % 4))).card
      = n / 4 * ((Finset.range 4).filter Q).card
        + ((Finset.range (n % 4)).filter Q).card := by
  induction n with
  | zero => simp
  | succ m ih =>
    rw [card_filter_range_succ (fun x => Q (x % 4)) m, ih, period4_step Q m]

/-- The rank extractor in terms of the residue modulo its period:
`seed / 2 ^ 16 % 13 = seed % 851968 / 65536`. -/
lemma rankOfSeed_eq_iff (x c : ℕ) :
    rankOfSeed x = c + 1 ↔ x % 851968 / 65536 = c := by
  unfold rankOfSeed
  rw [← Nat.mod_mul_right_div_self]
  norm_num

/-- Within one period, each of the 13 rank residues owns exactly `65536`
values. -/
lemma card_period_rank (c : ℕ) (hc : c < 13) :
    ((Finset.range 851968).filter (fun x => x / 65536 = c)).card = 65536 := by
  have h : (Finset.range 851968).filter (fun x => x / 65536 = c)
      = Finset.Ico (65536 * c) (65536 * c + 65536) := by
    ext x
    simp only [Finset.mem_filter, Finset.mem_range, Finset.mem_Ico]
    omega
  rw [h, Nat.card_Ico]
  omega

/-- The partial period `range 65536` lies entirely in rank residue `0`. -/
lemma card_partial_rank_zero :
    ((Finset.range 65536).filter (fun x => x / 65536 = 0)).card = 65536 := by
  have h : (Finset.range 65536).filter (fun x => x / 65536 = 0)
      = Finset.range 65536 := by
    ext x
    simp only [Finset.mem_filter, Finset.mem_range, and_iff_left_iff_imp]
    omega
  rw [h, Finset.card_range]

/-- The partial period `range 65536` contains no value of a positive rank
residue. -/
lemma card_partial_rank_pos (c : ℕ) (hc : 0 < c) :
    ((Finset.range 65536).filter (fun x => x / 65536 = c)).card = 0 := by
  rw [Finset.card_eq_zero, Finset.filter_eq_empty_iff]
  intro x hx
  simp only [Finset.mem_range] at hx
  omega

/-- Exact fiber size of the rank extractor over the full 256-bit seed
space: residue `0` (rank 1) owns one extra partial period. -/
lemma card_rank_fiber (c : ℕ) (hc : c < 13) :
    ((Finset.range UINT256_MOD).filter (fun x => rankOfSeed x = c + 1)).card
      = UINT256_MOD / 851968 * 65536 + (if c = 0 then 65536 else 0) := by
  have hcong : (Finset.range UINT256_MOD).filter (fun x => rankOfSeed x = c + 1)
      = (Finset.range UINT256_MOD).filter (fun x => x % 851968 / 65536 = c) := by
    apply Finset.filter_congr
    intro x _
    exact rankOfSeed_eq_iff x c
  rw [hcong,
    card_filter_mod_period13 (fun y => y / 65536 = c),
    card_period_rank c hc]
  have hmod : UINT256_MOD % 851968 = 65536 := by norm_num [UINT256_MOD]
  rw [hmod]
  by_cases h0 : c = 0
  · rw [h0, if_pos rfl, card_partial_rank_zero]
  · rw [if_neg h0, card_partial_rank_pos c (by omega)]

/-- Exact fiber size of the suit extractor over the full 256-bit seed
space: all four suits own `2 ^ 254` seeds. -/
lemma card_suit_fiber (v : ℕ) (h1 : 1 ≤ v) (h4 : v ≤ 4) :
    ((Finset.range UINT256_MOD).filter (fun x => suitOfSeed x = v)).card = 2 ^ 254 := by
  have hcong : (Finset.range UINT256_MOD).filter (fun x => suitOfSeed x = v)
      = (Finset.range UINT256_MOD).filter (fun x => x % 4 = v - 1) := by
    apply Finset.filter_congr
    intro x _
    unfold suitOfSeed
    omega
  have hone : ((Finset.range 4).filter (fun y => y = v - 1)).card = 1 := by
    rw [Finset.filter_eq', if_pos (Finset.mem_range.mpr (by omega)), Finset.card_singleton]
  rw [hcong, card_filter_mod_period4 (fun y => y = v - 1), hone]
  have hmod : UINT256_MOD % 4 = 0 := by norm_num [UINT256_MOD]
  have hdiv : UINT256_MOD / 4 = 2 ^ 254 := by norm_num [UINT256_MOD]
  rw [hmod, hdiv]
  simp

/-- C6 counterexample: the rank drawn by `_drawCard` is *not* uniformly
distributed over `[1,13]` across the `2 ^ 256` possible seeds: the fiber
of rank 1 is strictly larger than the fiber of rank 2 (by `2 ^ 16` seeds,
since `2 ^ 240 ≡ 1 (mod 13)`), refuting the uniformity conjunct of the
claim. -/
theorem drawCard_rank_not_uniform_cex :
    ((Finset.range UINT256_MOD).filter (fun x => rankOfSeed x = 1)).card
      ≠ ((Finset.range UINT256_MOD).filter (fun x => rankOfSeed x = 2)).card := by
  have h1 := card_rank_fiber 0 (by norm_num)
  have h2 := card_rank_fiber 1 (by norm_num)
  norm_num at h1 h2
  rw [h1, h2]
  omega

/-- C6 (amended): every draw is the deterministic image of the seed
`keccak(prevrandao, timestamp, player, nonce)`: the suit always lies in
`[1,4]` and is exactly uniform over the seed space (each suit owns
`2 ^ 254` of the `2 ^ 256` seeds); the rank always lies in `[1,13]` and is
only nearly uniform (ranks 2..13 own `2 ^ 256 / 851968` periods of `65536`
seeds each, rank 1 owns `65536` seeds more); and every successful
`startGame` advances the nonce by exactly one modulo `2 ^ 256`. -/
theorem drawCard_distribution (keccak : ℕ → ℕ → ℕ → ℕ → ℕ) (env : BlockEnv)
    (encSuit encRank : ℕ) (s : ContractState) (sender player nonce v : ℕ) :
    (1 ≤ (drawCard keccak env player nonce).1 ∧ (drawCard keccak env player nonce).1 ≤ 4) ∧
    (1 ≤ (drawCard keccak env player nonce).2 ∧ (drawCard keccak env player nonce).2 ≤ 13) ∧
    (1 ≤ v → v ≤ 4 →
      ((Finset.range UINT256_MOD).filter (fun x => suitOfSeed x = v)).card = 2 ^ 254) ∧
    (2 ≤ v → v ≤ 13 →
      ((Finset.range UINT256_MOD).filter (fun x => rankOfSeed x = v)).card
        = UINT256_MOD / 851968 * 65536) ∧
    ((Finset.range UINT256_MOD).filter (fun x => rankOfSeed x = 1)).card
      = UINT256_MOD / 851968 * 65536 + 65536 ∧
    ((startGame keccak env encSuit encRank s sender GAME_FEE).err = none →
      (startGame keccak env encSuit encRank s sender GAME_FEE).state.nonce
        = (s.nonce + 1) % UINT256_MOD) := by
  refine ⟨?_, ?_, ?_, ?_, ?_, ?_⟩
  · simp only [drawCard, suitOfSeed]
    omega
  · simp only [drawCard, rankOfSeed]
    omega
  · intro hv1 hv4
    exact card_suit_fiber v hv1 hv4
  · intro hv2 hv13
    have h := card_rank_fiber (v - 1) (by omega)
    rw [if_neg (by omega)] at h
    have hv : v - 1 + 1 = v := by omega
    rw [hv] at h
    rw [h, Nat.add_zero]
  · have h := card_rank_fiber 0 (by norm_num)
    norm_num at h
    rw [h]
  · intro hok
    unfold startGame at hok ⊢
    split_ifs at hok ⊢
    simp_all

/-- Witness for `drawCard_distribution`: concrete draw parameters, suit
and rank value `v = 2`, and player 8 starting in `stateIdle`. -/
theorem drawCard_distribution_witness :
    (1 ≤ (drawCard keccakZero envZero 7 5).1 ∧ (drawCard keccakZero envZero 7 5).1 ≤ 4) ∧
    (1 ≤ (drawCard keccakZero envZero 7 5).2 ∧ (drawCard keccakZero envZero 7 5).2 ≤ 13) ∧
    (1 ≤ 2 → 2 ≤ 4 →
      ((Finset.range UINT256_MOD).filter (fun x => suitOfSeed x = 2)).card = 2 ^ 254) ∧
    (2 ≤ 2 → 2 ≤ 13 →
      ((Finset.range UINT256_MOD).filter (fun x => rankOfSeed x = 2)).card
        = UINT256_MOD / 851968 * 65536) ∧
    ((Finset.range UINT256_MOD).filter (fun x => rankOfSeed x = 1)).card
      = UINT256_MOD / 851968 * 65536 + 65536 ∧
    ((startGame keccakZero envZero 33 44 stateIdle 8 GAME_FEE).err = none →
      (startGame keccakZero envZero 33 44 stateIdle 8 GAME_FEE).state.nonce
        = (stateIdle.nonce + 1) % UINT256_MOD) :=
  drawCard_distribution keccakZero envZero 33 44 stateIdle 8 7 5 2

end EncryptedPokerGame
